import Mathlib

/-!
Formal model of `src/kindle_to_pdf.py`.

The heart of the program is the capture-and-deduplicate loop of
`run_capture` (lines 554-612), followed by the test-mode check
(lines 620-630), the assembly step `images_to_pdf` (lines 444-493) and
cleanup (lines 641-652).  The whitespace trimming step `trim_whitespace`
(lines 412-437) is modelled further below.

The loop is driven by per-iteration outcomes: either the
`capture_window` call fails (line 575) or it succeeds and the captured
frame has a fingerprint (`get_image_hash`, line 580).  Fingerprints are
abstracted to an arbitrary type with decidable equality
(`get_image_hash` returns an MD5 hex string).  The frame store (the
`screenshots_*` directory) is modelled as the list of retained
`(page index, fingerprint)` pairs, in creation order.
-/

/-- One per-iteration outcome of the `capture_window` call in the loop
body (line 575): the call either fails, or succeeds yielding a frame
whose fingerprint (line 580) is `fp`. -/
inductive Outcome (α : Type) where
  | fail : Outcome α
  | ok : α → Outcome α
deriving DecidableEq

/-- The capture loop's mutable state (lines 554-557): `page`,
`same_count`, `failed_turns`, `last_hash`, plus the frame files
currently present in the output folder, as `(page index, fingerprint)`
pairs in creation order. -/
structure SessionState (α : Type) where
  page : Nat
  sameCount : Nat
  failedTurns : Nat
  lastHash : Option α
  store : List (Nat × α)
deriving DecidableEq

/-- Initial loop state (lines 554-557; the output folder starts empty). -/
def initialState (α : Type) : SessionState α := ⟨0, 0, 0, none, []⟩

/-- Why the loop stopped: `complete` is the `break` after five
consecutive duplicates (lines 587-592); `ceiling` means the
`while page < max_pages` condition (line 561) became false;
`exhausted` means the supplied outcome sequence ran out (a model
artifact: the real loop has an endless supply of capture outcomes). -/
inductive Reason where
  | complete
  | ceiling
  | exhausted
deriving DecidableEq

/-- The duplicate branch of the loop body (lines 582-585): the frame was
written at the tentative index `page + 1` (line 563), found to have the
same fingerprint as `last_hash`, unlinked again (line 584), and the
tentative index rolled back (`page -= 1`, line 585); `same_count` is
incremented (line 583).  `failed_turns` is updated only after the
termination check (line 595), so not here. -/
def duplicateStep (st : SessionState α) (fp : α) : SessionState α :=
  { page := st.page + 1 - 1
    sameCount := st.sameCount + 1
    failedTurns := st.failedTurns
    lastHash := st.lastHash
    store := (st.store ++ [(st.page + 1, fp)]).dropLast }

/-- The progress branch of the loop body (lines 598-601): the frame at
the tentative index `page + 1` is retained, both counters reset, and
`last_hash` updated. -/
def progressStep (st : SessionState α) (fp : α) : SessionState α :=
  { page := st.page + 1
    sameCount := 0
    failedTurns := 0
    lastHash := some fp
    store := st.store ++ [(st.page + 1, fp)] }

/-- Result of running the loop: the final state, why the loop stopped,
and the outcomes actually consumed (one per executed iteration). -/
structure RunResult (α : Type) where
  state : SessionState α
  reason : Reason
  consumed : List (Outcome α)
deriving DecidableEq

/-- The capture loop of `run_capture` (lines 561-612), driven by a
finite supply of per-iteration capture outcomes.  Each iteration first
checks `page < max_pages` (line 561), then increments the tentative
index and captures.  On a capture failure the code logs and does
`continue` (lines 575-577), keeping the already-incremented `page`.  On
a duplicate fingerprint (line 582) it runs `duplicateStep` and breaks if
`same_count >= 5` (line 587); otherwise `failed_turns` is incremented
(line 595).  On a new fingerprint it runs `progressStep`.  The
`next_page()` call and the sleeps (lines 609-612) have no loop state. -/
def runLoop [DecidableEq α] (st : SessionState α) (maxPages : Nat) :
    List (Outcome α) → RunResult α
  | [] =>
    if st.page < maxPages then ⟨st, .exhausted, []⟩ else ⟨st, .ceiling, []⟩
  | o :: rest =>
    if st.page < maxPages then
      match o with
      | .fail =>
        let r := runLoop { st with page := st.page + 1 } maxPages rest
        ⟨r.state, r.reason, .fail :: r.consumed⟩
      | .ok fp =>
        if some fp = st.lastHash then
          let st1 := duplicateStep st fp
          if st1.sameCount ≥ 5 then ⟨st1, .complete, [.ok fp]⟩
          else
            let r := runLoop { st1 with failedTurns := st1.failedTurns + 1 }
              maxPages rest
            ⟨r.state, r.reason, .ok fp :: r.consumed⟩
        else
          let r := runLoop (progressStep st fp) maxPages rest
          ⟨r.state, r.reason, .ok fp :: r.consumed⟩
    else ⟨st, .ceiling, []⟩

/-- Run the capture loop from the initial state (lines 554-561). -/
def runCapture [DecidableEq α] (outs : List (Outcome α)) (maxPages : Nat) :
    RunResult α :=
  runLoop (initialState α) maxPages outs

/-- Default value of the `max_pages` parameter (line 500 and the
`--max-pages` default, line 829). -/
def defaultMaxPages : Nat := 2000

/-- Effective page ceiling: test mode forces `max_pages = 5`
(lines 513-514), otherwise the supplied value is used. -/
def effectiveMaxPages (testMode : Bool) (maxPages : Nat) : Nat :=
  if testMode then 5 else maxPages

/-- The fingerprints among a list of outcomes, in order: the frames that
were actually fingerprinted by the loop. -/
def okFingerprints : List (Outcome α) → List α :=
  List.filterMap fun o => match o with | .fail => none | .ok a => some a

/-- Whether an outcome is a capture failure. -/
def isFail : Outcome α → Bool
  | .fail => true
  | .ok _ => false

/-- Number of capture failures in a list of outcomes. -/
def countFails (l : List (Outcome α)) : Nat := (l.filter isFail).length

/-- Number of fingerprints in a list that differ from their immediate
predecessor, the first element counting as differing from the prior
value `last` (`none` before any capture, line 554). -/
def countProgress [DecidableEq α] : Option α → List α → Nat
  | _, [] => 0
  | last, a :: rest =>
    (if some a = last then 0 else 1) + countProgress (some a) rest

/-- The assembly step `images_to_pdf` (lines 444-493): given the frame
files of the folder (sorted, line 457), it fails when there are none
(lines 459-461), producing no output file; otherwise it produces a PDF
from the frames in order.  The produced PDF is modelled as the list of
its page frames. -/
def imagesToPdf (frames : List (Nat × α)) : Option (List (Nat × α)) :=
  if frames.isEmpty then none else some frames

/-- What `run_capture` leaves behind after the post-loop phase: the
output PDF (`none` when `run_capture` returns `None`, i.e. no output
file is produced) and the frame files still on disk when it returns. -/
structure RunOutput (α : Type) where
  pdf : Option (List (Nat × α))
  keptFrames : List (Nat × α)
deriving DecidableEq

/-- The post-loop phase of `run_capture` (lines 620-652).  In test mode
with fewer than 3 captured files, the folder is removed (`shutil.rmtree`,
line 629) and `None` returned (line 630).  Otherwise `process_images`
runs in place (not changing the set of files) and `images_to_pdf` is
called: on success the folder is removed (line 645) and the PDF path
returned; on failure `None` is returned with the frame files kept on
disk (lines 650-652). -/
def finishCapture (testMode : Bool) (store : List (Nat × α)) : RunOutput α :=
  if testMode ∧ store.length < 3 then ⟨none, []⟩
  else
    match imagesToPdf store with
    | none => ⟨none, store⟩
    | some pdf => ⟨some pdf, []⟩

/-- Full `run_capture`: the loop with the effective page ceiling
(lines 513-514, 561), then the post-loop phase. -/
def runCaptureFull [DecidableEq α] (testMode : Bool)
    (outs : List (Outcome α)) (maxPages : Nat) : RunOutput α :=
  finishCapture testMode
    (runCapture outs (effectiveMaxPages testMode maxPages)).state.store

/-! ### Unfolding lemmas for the loop -/

theorem runLoop_nil [DecidableEq α] (st : SessionState α) (maxPages : Nat) :
    runLoop st maxPages [] =
      if st.page < maxPages then ⟨st, .exhausted, []⟩ else ⟨st, .ceiling, []⟩ :=
  rfl

theorem runLoop_stop [DecidableEq α] (st : SessionState α) (maxPages : Nat)
    (o : Outcome α) (rest : List (Outcome α)) (h : ¬ st.page < maxPages) :
    runLoop st maxPages (o :: rest) = ⟨st, .ceiling, []⟩ := by
  cases o <;> simp [runLoop, h]

theorem runLoop_fail [DecidableEq α] (st : SessionState α) (maxPages : Nat)
    (rest : List (Outcome α)) (h : st.page < maxPages) :
    runLoop st maxPages (.fail :: rest) =
      ⟨(runLoop { st with page := st.page + 1 } maxPages rest).state,
       (runLoop { st with page := st.page + 1 } maxPages rest).reason,
       .fail :: (runLoop { st with page := st.page + 1 } maxPages rest).consumed⟩ := by
  simp [runLoop, h]

theorem runLoop_dup_stop [DecidableEq α] (st : SessionState α) (maxPages : Nat)
    (fp : α) (rest : List (Outcome α)) (h : st.page < maxPages)
    (hfp : some fp = st.lastHash) (h5 : st.sameCount + 1 ≥ 5) :
    runLoop st maxPages (.ok fp :: rest) =
      ⟨duplicateStep st fp, .complete, [.ok fp]⟩ := by
  simp [runLoop, h, hfp, duplicateStep, h5]

theorem runLoop_dup_cont [DecidableEq α] (st : SessionState α) (maxPages : Nat)
    (fp : α) (rest : List (Outcome α)) (h : st.page < maxPages)
    (hfp : some fp = st.lastHash) (h5 : ¬ st.sameCount + 1 ≥ 5) :
    runLoop st maxPages (.ok fp :: rest) =
      ⟨(runLoop { duplicateStep st fp with
            failedTurns := (duplicateStep st fp).failedTurns + 1 } maxPages rest).state,
       (runLoop { duplicateStep st fp with
            failedTurns := (duplicateStep st fp).failedTurns + 1 } maxPages rest).reason,
       .ok fp :: (runLoop { duplicateStep st fp with
            failedTurns := (duplicateStep st fp).failedTurns + 1 } maxPages rest).consumed⟩ := by
  simp [runLoop, h, hfp, duplicateStep, h5]

theorem runLoop_progress [DecidableEq α] (st : SessionState α) (maxPages : Nat)
    (fp : α) (rest : List (Outcome α)) (h : st.page < maxPages)
    (hfp : ¬ some fp = st.lastHash) :
    runLoop st maxPages (.ok fp :: rest) =
      ⟨(runLoop (progressStep st fp) maxPages rest).state,
       (runLoop (progressStep st fp) maxPages rest).reason,
       .ok fp :: (runLoop (progressStep st fp) maxPages rest).consumed⟩ := by
  simp [runLoop, h, hfp]

theorem countFails_cons_fail (l : List (Outcome α)) :
    countFails (.fail :: l) = countFails l + 1 := by
  simp [countFails, isFail]

theorem countFails_cons_ok (a : α) (l : List (Outcome α)) :
    countFails (.ok a :: l) = countFails l := by
  simp [countFails, isFail]

theorem okFingerprints_cons_fail (l : List (Outcome α)) :
    okFingerprints (.fail :: l) = okFingerprints l := by
  simp [okFingerprints]

theorem okFingerprints_cons_ok (a : α) (l : List (Outcome α)) :
    okFingerprints (.ok a :: l) = a :: okFingerprints l := by
  simp [okFingerprints]

/-! ### Page index versus progress count (claim C1) -/

theorem runLoop_page_eq_countProgress [DecidableEq α] (fps : List α)
    (st : SessionState α) (maxPages : Nat) :
    (runLoop st maxPages (fps.map .ok)).state.page
      = st.page + countProgress st.lastHash
          (okFingerprints (runLoop st maxPages (fps.map .ok)).consumed) := by
  induction fps generalizing st with
  | nil =>
    rw [List.map_nil, runLoop_nil]
    split <;> simp [okFingerprints, countProgress]
  | cons a rest ih =>
    rw [List.map_cons]
    by_cases hlt : st.page < maxPages
    · by_cases hfp : some a = st.lastHash
      · by_cases h5 : st.sameCount + 1 ≥ 5
        · rw [runLoop_dup_stop st maxPages a _ hlt hfp h5]
          simp [duplicateStep, okFingerprints, countProgress, hfp]
        · rw [runLoop_dup_cont st maxPages a _ hlt hfp h5]
          have h1 := ih { duplicateStep st a with
            failedTurns := (duplicateStep st a).failedTurns + 1 }
          simp only [duplicateStep] at h1 ⊢
          rw [okFingerprints_cons_ok, countProgress, if_pos hfp, h1, hfp]
          omega
      · rw [runLoop_progress st maxPages a _ hlt hfp]
        have h1 := ih (progressStep st a)
        simp only [progressStep] at h1 ⊢
        rw [okFingerprints_cons_ok, countProgress, if_neg hfp, h1]
        omega
    · rw [runLoop_stop st maxPages _ _ hlt]
      simp [okFingerprints, countProgress]

/-- Claim C1: when every capture call succeeds (and nothing cancels the
run), the final `page` equals the number of fingerprints, among those
the loop was actually fed, that differ from their immediate
predecessor, the first fingerprint counting as differing (it is compared
against `last_hash = None`, line 554); duplicates contribute nothing. -/
theorem c1_page_counts_progress {α : Type} [DecidableEq α]
    (fps : List α) (maxPages : Nat) :
    (runCapture (fps.map .ok) maxPages).state.page
      = countProgress none
          (okFingerprints (runCapture (fps.map .ok) maxPages).consumed) := by
  have h := runLoop_page_eq_countProgress fps (initialState α) maxPages
  simpa [initialState, runCapture] using h

/-! ### Duplicate handling and normal completion (claim C2) -/

theorem runLoop_complete_iff [DecidableEq α] (outs : List (Outcome α))
    (st : SessionState α) (maxPages : Nat) (h : st.sameCount < 5) :
    ((runLoop st maxPages outs).reason = .complete ↔
      (runLoop st maxPages outs).state.sameCount = 5) := by
  induction outs generalizing st with
  | nil =>
    rw [runLoop_nil]
    split <;> simp <;> omega
  | cons o rest ih =>
    by_cases hlt : st.page < maxPages
    · cases o with
      | fail =>
        rw [runLoop_fail st maxPages rest hlt]
        exact ih { st with page := st.page + 1 } h
      | ok fp =>
        by_cases hfp : some fp = st.lastHash
        · by_cases h5 : st.sameCount + 1 ≥ 5
          · rw [runLoop_dup_stop st maxPages fp rest hlt hfp h5]
            simp [duplicateStep]
            omega
          · rw [runLoop_dup_cont st maxPages fp rest hlt hfp h5]
            exact ih _ (by simp [duplicateStep]; omega)
        · rw [runLoop_progress st maxPages fp rest hlt hfp]
          exact ih _ (by simp [progressStep])
    · rw [runLoop_stop st maxPages o rest hlt]
      simp
      omega

/-- Claim C2: when the fresh fingerprint equals `last_hash` the iteration
leaves the frame store unchanged (the just-written frame is unlinked,
line 584), leaves the page index at its pre-iteration value (the
tentative `page + 1` is rolled back, line 585) and increments
`same_count` (line 583); and a full run reaches normal completion
(`Reason.complete`, the `break` of lines 587-592) exactly when the final
`same_count` is exactly 5 — no other condition produces it. -/
theorem c2_duplicate_and_completion {α : Type} [DecidableEq α] :
    (∀ (st : SessionState α) (fp : α), some fp = st.lastHash →
        (duplicateStep st fp).store = st.store ∧
        (duplicateStep st fp).page = st.page ∧
        (duplicateStep st fp).sameCount = st.sameCount + 1) ∧
    (∀ (outs : List (Outcome α)) (maxPages : Nat),
        ((runCapture outs maxPages).reason = .complete ↔
          (runCapture outs maxPages).state.sameCount = 5)) := by
  constructor
  · intro st fp _
    refine ⟨?_, ?_, rfl⟩
    · simp [duplicateStep]
    · simp [duplicateStep]
  · intro outs maxPages
    exact runLoop_complete_iff outs (initialState α) maxPages (by simp [initialState])

/-- Witness for C2 at concrete inputs. -/
theorem c2_duplicate_and_completion_witness :
    (duplicateStep (⟨1, 0, 0, some 7, [(1, 7)]⟩ : SessionState Nat) 7).store = [(1, 7)] ∧
    (duplicateStep (⟨1, 0, 0, some 7, [(1, 7)]⟩ : SessionState Nat) 7).page = 1 ∧
    ((runCapture (List.replicate 6 (Outcome.ok (0 : Nat))) 2000).reason = .complete ↔
      (runCapture (List.replicate 6 (Outcome.ok (0 : Nat))) 2000).state.sameCount = 5) :=
  ⟨((c2_duplicate_and_completion (α := Nat)).1 ⟨1, 0, 0, some 7, [(1, 7)]⟩ 7 rfl).1,
   ((c2_duplicate_and_completion (α := Nat)).1 ⟨1, 0, 0, some 7, [(1, 7)]⟩ 7 rfl).2.1,
   (c2_duplicate_and_completion (α := Nat)).2 (List.replicate 6 (Outcome.ok 0)) 2000⟩

/-! ### Page index versus store contents (claim C3) -/

/-- Claim C3, counterexample: after a single iteration whose capture
call fails, `page` is 1 (the `continue` at line 577 does not undo the
increment at line 562) while the frame store is still empty, so
`pageIndex` does not equal the number of retained frames. -/
theorem c3_counterexample :
    (runCapture [(Outcome.fail : Outcome Nat)] 2000).state.page ≠
      (runCapture [(Outcome.fail : Outcome Nat)] 2000).state.store.length := by
  decide

theorem runLoop_page_eq_store_add_fails [DecidableEq α]
    (outs : List (Outcome α)) (st : SessionState α) (maxPages : Nat) :
    (runLoop st maxPages outs).state.page + st.store.length
      = (runLoop st maxPages outs).state.store.length + st.page
        + countFails (runLoop st maxPages outs).consumed := by
  induction outs generalizing st with
  | nil =>
    rw [runLoop_nil]
    split <;> simp [countFails] <;> omega
  | cons o rest ih =>
    by_cases hlt : st.page < maxPages
    · cases o with
      | fail =>
        rw [runLoop_fail st maxPages rest hlt]
        have h1 := ih { st with page := st.page + 1 }
        dsimp only at h1
        simp only [countFails_cons_fail]
        omega
      | ok fp =>
        by_cases hfp : some fp = st.lastHash
        · by_cases h5 : st.sameCount + 1 ≥ 5
          · rw [runLoop_dup_stop st maxPages fp rest hlt hfp h5]
            simp [duplicateStep, countFails, isFail]
            omega
          · rw [runLoop_dup_cont st maxPages fp rest hlt hfp h5]
            have h1 := ih { duplicateStep st fp with
              failedTurns := (duplicateStep st fp).failedTurns + 1 }
            simp only [duplicateStep, List.dropLast_concat] at h1 ⊢
            rw [countFails_cons_ok]
            omega
        · rw [runLoop_progress st maxPages fp rest hlt hfp]
          have h1 := ih (progressStep st fp)
          simp only [progressStep, List.length_append, List.length_cons,
            List.length_nil] at h1 ⊢
          rw [countFails_cons_ok]
          omega
    · rw [runLoop_stop st maxPages o rest hlt]
      simp [countFails]
      omega

/-- Claim C3 (amended): at the end of any run, `page` equals the number
of frames retained in the store plus the number of iterations whose
capture call failed; the stated invariant `page = retained frames` holds
exactly on runs without capture failures. -/
theorem c3_page_eq_store_plus_failures {α : Type} [DecidableEq α]
    (outs : List (Outcome α)) (maxPages : Nat) :
    (runCapture outs maxPages).state.page
      = (runCapture outs maxPages).state.store.length
        + countFails (runCapture outs maxPages).consumed := by
  have h := runLoop_page_eq_store_add_fails outs (initialState α) maxPages
  simpa [initialState, runCapture] using h

/-! ### Capture failures (claim C4) -/

/-- Claim C4, counterexample: after a failed capture followed by a
successful one, the retained frame sits at index 2 and `page` is 2 —
the tentative index 1 consumed by the failed iteration was *not*
reused (the `continue` at line 577 skips the rollback), leaving a gap
in the file numbering. -/
theorem c4_counterexample :
    (runCapture [Outcome.fail, Outcome.ok (5 : Nat)] 2000).state.store = [(2, 5)] ∧
    (runCapture [Outcome.fail, Outcome.ok (5 : Nat)] 2000).state.page = 2 := by
  decide

/-- Claim C4 (amended): an iteration whose capture call fails proceeds
to the next iteration having permanently consumed its tentative page
index (`page` stays incremented, so the next iteration uses the next
higher index) while `same_count`, `failed_turns`, `last_hash` and the
frame store are all unchanged; the failure itself triggers no
termination decision — the run continues exactly as it would from the
incremented state (though the consumed index does count toward the
`page < max_pages` ceiling at the next check). -/
theorem c4_capture_failure_consumes_index {α : Type} [DecidableEq α]
    (st : SessionState α) (rest : List (Outcome α)) (maxPages : Nat)
    (h : st.page < maxPages) :
    (runLoop st maxPages (.fail :: rest)).state
        = (runLoop ⟨st.page + 1, st.sameCount, st.failedTurns, st.lastHash,
            st.store⟩ maxPages rest).state ∧
    (runLoop st maxPages (.fail :: rest)).reason
        = (runLoop ⟨st.page + 1, st.sameCount, st.failedTurns, st.lastHash,
            st.store⟩ maxPages rest).reason ∧
    (runLoop st maxPages (.fail :: rest)).consumed
        = .fail :: (runLoop ⟨st.page + 1, st.sameCount, st.failedTurns,
            st.lastHash, st.store⟩ maxPages rest).consumed := by
  rw [runLoop_fail st maxPages rest h]
  exact ⟨rfl, rfl, rfl⟩

/-- Witness for C4 (amended) at a concrete state. -/
theorem c4_capture_failure_consumes_index_witness :
    (runLoop (⟨1, 2, 3, some 9, [(1, 9)]⟩ : SessionState Nat) 2000
        [Outcome.fail, Outcome.ok 4]).state
      = (runLoop (⟨2, 2, 3, some 9, [(1, 9)]⟩ : SessionState Nat) 2000
          [Outcome.ok 4]).state :=
  (c4_capture_failure_consumes_index ⟨1, 2, 3, some 9, [(1, 9)]⟩
    [Outcome.ok 4] 2000 (by decide)).1

/-! ### All-distinct fingerprints reach the page ceiling (claim C5) -/

theorem runLoop_distinct_ceiling [DecidableEq α] (fps : List α)
    (st : SessionState α) (maxPages : Nat)
    (hlen : st.page + fps.length = maxPages)
    (hchain : fps.Chain' (· ≠ ·))
    (hhead : ∀ a ∈ fps.head?, st.lastHash ≠ some a) :
    (runLoop st maxPages (fps.map .ok)).state.page = maxPages ∧
    (runLoop st maxPages (fps.map .ok)).reason = .ceiling := by
  induction fps generalizing st with
  | nil =>
    have hstop : ¬ st.page < maxPages := by simp at hlen; omega
    rw [List.map_nil, runLoop_nil, if_neg hstop]
    simp at hlen ⊢
    omega
  | cons a rest ih =>
    have hlt : st.page < maxPages := by simp at hlen; omega
    have hfp : ¬ some a = st.lastHash := by
      intro he
      exact hhead a (by simp) he.symm
    rw [List.map_cons, runLoop_progress st maxPages a _ hlt hfp]
    refine ih (progressStep st a) ?_ hchain.tail ?_
    · simp [progressStep] at *
      omega
    · intro b hb
      have hab : a ≠ b := (List.chain'_cons'.mp hchain).1 b hb
      simp [progressStep]
      exact hab

/-- Claim C5: feeding the loop `maxPages` pairwise-distinct fingerprints
with every capture succeeding terminates via the page ceiling (the
`while page < max_pages` check, line 561) with `page = maxPages`; the
ceiling defaults to 2000 (line 500) and test mode forces it to 5
(lines 513-514). -/
theorem c5_distinct_reaches_ceiling {α : Type} [DecidableEq α]
    (fps : List α) (maxPages : Nat)
    (hlen : fps.length = maxPages) (hdist : fps.Pairwise (· ≠ ·)) :
    (runCapture (fps.map .ok) maxPages).reason = .ceiling ∧
    (runCapture (fps.map .ok) maxPages).state.page = maxPages ∧
    defaultMaxPages = 2000 ∧ (∀ k, effectiveMaxPages true k = 5) := by
  have h := runLoop_distinct_ceiling fps (initialState α) maxPages
    (by simpa [initialState] using hlen) hdist.chain'
    (by intro a _; simp [initialState])
  exact ⟨h.2, h.1, rfl, fun k => rfl⟩

/-- Witness for C5 with three distinct fingerprints and ceiling 3. -/
theorem c5_distinct_reaches_ceiling_witness :
    (runCapture ([0, 1, 2].map Outcome.ok) 3).reason = .ceiling ∧
    (runCapture (([0, 1, 2] : List Nat).map Outcome.ok) 3).state.page = 3 :=
  ⟨(c5_distinct_reaches_ceiling [0, 1, 2] 3 rfl (by decide)).1,
   (c5_distinct_reaches_ceiling [0, 1, 2] 3 rfl (by decide)).2.1⟩

/-! ### The [A, B, B, B, B, B] scenario (claim C6) -/

/-- Claim C6, counterexample: feeding `[A, B, B, B, B, B]` with
`A = 0 ≠ 1 = B` retains TWO frames (A's and the first B's), ends with
`page = 2`, and does not reach normal completion: the first B differs
from A and is retained, so only four duplicate events occur and
`same_count` peaks at 4, below the threshold of 5. -/
theorem c6_counterexample :
    (runCapture [Outcome.ok (0 : Nat), .ok 1, .ok 1, .ok 1, .ok 1, .ok 1]
        2000).state.store.length = 2 ∧
    (runCapture [Outcome.ok (0 : Nat), .ok 1, .ok 1, .ok 1, .ok 1, .ok 1]
        2000).state.page = 2 ∧
    (runCapture [Outcome.ok (0 : Nat), .ok 1, .ok 1, .ok 1, .ok 1, .ok 1]
        2000).reason ≠ .complete := by
  decide

/-- Claim C6 (amended): feeding `[A, B, B, B, B, B]` (A once, then B
five times, `A ≠ B`, all captures succeeding) retains exactly the two
frames `(1, A)` and `(2, B)`, ends with `page = 2` and `same_count = 4`,
and the loop is still running when the supply ends — the duplicate
threshold is not reached because the first B counts as progress. -/
theorem c6_scenario {α : Type} [DecidableEq α] (A B : α) (hne : A ≠ B) :
    (runCapture [Outcome.ok A, .ok B, .ok B, .ok B, .ok B, .ok B]
        2000).state.store = [(1, A), (2, B)] ∧
    (runCapture [Outcome.ok A, .ok B, .ok B, .ok B, .ok B, .ok B]
        2000).state.page = 2 ∧
    (runCapture [Outcome.ok A, .ok B, .ok B, .ok B, .ok B, .ok B]
        2000).state.sameCount = 4 ∧
    (runCapture [Outcome.ok A, .ok B, .ok B, .ok B, .ok B, .ok B]
        2000).reason = .exhausted := by
  have hBA : ¬ (B = A) := fun e => hne e.symm
  simp [runCapture, runLoop, initialState, duplicateStep, progressStep, hBA]

/-- Witness for C6 (amended) at `A = 0`, `B = 1`. -/
theorem c6_scenario_witness :
    (runCapture [Outcome.ok (0 : Nat), .ok 1, .ok 1, .ok 1, .ok 1, .ok 1]
        2000).state.store = [(1, 0), (2, 1)] ∧
    (runCapture [Outcome.ok (0 : Nat), .ok 1, .ok 1, .ok 1, .ok 1, .ok 1]
        2000).reason = .exhausted :=
  ⟨(c6_scenario 0 1 (by decide)).1, (c6_scenario 0 1 (by decide)).2.2.2⟩

/-! ### Test (verification) mode (claim C7) -/

/-- Claim C7, counterexample: in test mode (effective ceiling 5,
lines 513-514) a run fed six equal fingerprints executes SIX loop
iterations, not five, and it terminates through the duplicate-threshold
`break` (lines 587-592) — the shortcut is not disabled in test mode. -/
theorem c7_counterexample :
    (runCapture (List.replicate 6 (Outcome.ok (0 : Nat)))
        (effectiveMaxPages true 2000)).consumed.length = 6 ∧
    (runCapture (List.replicate 6 (Outcome.ok (0 : Nat)))
        (effectiveMaxPages true 2000)).reason = .complete := by
  decide

/-- Claim C7 (amended): test mode runs the same capture loop with the
page ceiling forced to 5 (lines 513-514); the duplicate-termination
shortcut stays active and the iteration count is not fixed at 5.
Afterwards (lines 620-630): if fewer than 3 frame files were retained,
the folder is removed and a failure (`None`) is returned; with at least
3 retained frames the run proceeds to assembly, which succeeds on the
nonempty store, and the frames are discarded only after the PDF is
produced. -/
theorem c7_test_mode {α : Type} [DecidableEq α]
    (outs : List (Outcome α)) (m : Nat) :
    (∀ k, effectiveMaxPages true k = 5) ∧
    ((runCapture outs 5).state.store.length < 3 →
      runCaptureFull true outs m = ⟨none, []⟩) ∧
    (3 ≤ (runCapture outs 5).state.store.length →
      runCaptureFull true outs m
        = ⟨some (runCapture outs 5).state.store, []⟩) := by
  refine ⟨fun k => rfl, ?_, ?_⟩
  · intro h
    simp [runCaptureFull, finishCapture, effectiveMaxPages, h]
  · intro h
    have hne : ¬ (runCapture outs 5).state.store.isEmpty = true := by
      cases hs : (runCapture outs 5).state.store with
      | nil => rw [hs] at h; simp at h
      | cons x l => simp
    have h3 : ¬ ((runCapture outs 5).state.store.length < 3) := by omega
    simp [runCaptureFull, finishCapture, effectiveMaxPages, imagesToPdf, hne, h3]

/-- Witness for C7 (amended): six equal fingerprints in test mode
retain one frame, so the test fails, the folder is discarded and no
output is produced. -/
theorem c7_test_mode_witness :
    (runCapture (List.replicate 6 (Outcome.ok (0 : Nat))) 5).state.store.length < 3 ∧
    runCaptureFull true (List.replicate 6 (Outcome.ok (0 : Nat))) 2000
      = ⟨none, []⟩ :=
  ⟨by decide,
   (c7_test_mode (List.replicate 6 (Outcome.ok (0 : Nat))) 2000).2.1 (by decide)⟩

/-! ### Assembly failure leaves no frames behind (claim C8) -/

/-- Claim C8: the assembler fails on an empty frame sequence, producing
no output file (lines 459-461); and whenever the post-loop phase of
`run_capture` ends in failure (no PDF produced), no frame files remain:
the test-mode failure path removes the folder (line 629), and the
assembly-failure path (which keeps the folder, lines 650-652) is only
reached with an empty store, so no frame files exist to leave behind. -/
theorem c8_assembly_failure {α : Type} :
    imagesToPdf ([] : List (Nat × α)) = none ∧
    (∀ (testMode : Bool) (store : List (Nat × α)),
      (finishCapture testMode store).pdf = none →
        (finishCapture testMode store).keptFrames = []) := by
  refine ⟨rfl, fun tm store h => ?_⟩
  by_cases h1 : tm ∧ store.length < 3
  · simp [finishCapture, h1]
  · cases store with
    | nil => simp [finishCapture, h1, imagesToPdf]
    | cons x l =>
      rw [finishCapture, if_neg h1] at h ⊢
      simp [imagesToPdf] at h
/-- Witness for C8: a failed test-mode run (two frames) keeps nothing. -/
theorem c8_assembly_failure_witness :
    (finishCapture true ([(1, 0), (2, 0)] : List (Nat × Nat))).pdf = none ∧
    (finishCapture true ([(1, 0), (2, 0)] : List (Nat × Nat))).keptFrames = [] :=
  ⟨by decide, (c8_assembly_failure (α := Nat)).2 true [(1, 0), (2, 0)] (by decide)⟩

/-! ### Termination bound (claim C10) -/

theorem runLoop_consumed_bound [DecidableEq α] (outs : List (Outcome α))
    (st : SessionState α) (maxPages : Nat) (h : st.sameCount ≤ 4) :
    (runLoop st maxPages outs).consumed.length + st.sameCount
      ≤ 5 * (maxPages - st.page) + 5 := by
  induction outs generalizing st with
  | nil =>
    rw [runLoop_nil]
    split <;> simp <;> omega
  | cons o rest ih =>
    by_cases hlt : st.page < maxPages
    · cases o with
      | fail =>
        rw [runLoop_fail st maxPages rest hlt]
        have h1 := ih { st with page := st.page + 1 } h
        dsimp only at h1
        simp only [List.length_cons]
        omega
      | ok fp =>
        by_cases hfp : some fp = st.lastHash
        · by_cases h5 : st.sameCount + 1 ≥ 5
          · rw [runLoop_dup_stop st maxPages fp rest hlt hfp h5]
            simp
            omega
          · rw [runLoop_dup_cont st maxPages fp rest hlt hfp h5]
            have h1 := ih { duplicateStep st fp with
              failedTurns := (duplicateStep st fp).failedTurns + 1 }
              (by simp [duplicateStep]; omega)
            simp only [duplicateStep] at h1 ⊢
            simp only [List.length_cons]
            omega
        · rw [runLoop_progress st maxPages fp rest hlt hfp]
          have h1 := ih (progressStep st fp) (by simp [progressStep])
          simp only [progressStep] at h1 ⊢
          simp only [List.length_cons]
          omega
    · rw [runLoop_stop st maxPages o rest hlt]
      simp
      omega

theorem runLoop_exhausted_consumed [DecidableEq α] (outs : List (Outcome α))
    (st : SessionState α) (maxPages : Nat)
    (h : (runLoop st maxPages outs).reason = .exhausted) :
    (runLoop st maxPages outs).consumed = outs := by
  induction outs generalizing st with
  | nil =>
    rw [runLoop_nil]
    split <;> rfl
  | cons o rest ih =>
    by_cases hlt : st.page < maxPages
    · cases o with
      | fail =>
        rw [runLoop_fail st maxPages rest hlt] at h ⊢
        simp only [List.cons.injEq, true_and]
        exact ih _ h
      | ok fp =>
        by_cases hfp : some fp = st.lastHash
        · by_cases h5 : st.sameCount + 1 ≥ 5
          · rw [runLoop_dup_stop st maxPages fp rest hlt hfp h5] at h
            simp at h
          · rw [runLoop_dup_cont st maxPages fp rest hlt hfp h5] at h ⊢
            simp only [List.cons.injEq, true_and]
            exact ih _ h
        · rw [runLoop_progress st maxPages fp rest hlt hfp] at h ⊢
          simp only [List.cons.injEq, true_and]
          exact ih _ h
    · rw [runLoop_stop st maxPages o rest hlt] at h
      simp at h

/-- Claim C10: every run executes at most `5 * maxPages + 5` iterations;
in particular, given any supply of more than `5 * maxPages + 5`
outcomes (so also along any infinite outcome stream) the loop halts by
its own decision — the duplicate-threshold `break` or the page ceiling —
without exhausting the supply.  Every iteration either permanently
advances `page` (capture failures and progress, bounded by the ceiling)
or increments `same_count` (which forces the `break` at 5 and is reset
only by a page-advancing progress iteration). -/
theorem c10_termination_bound {α : Type} [DecidableEq α]
    (outs : List (Outcome α)) (maxPages : Nat) :
    (runCapture outs maxPages).consumed.length ≤ 5 * maxPages + 5 ∧
    (5 * maxPages + 5 < outs.length →
      (runCapture outs maxPages).reason ≠ .exhausted) := by
  have hb := runLoop_consumed_bound outs (initialState α) maxPages
    (by simp [initialState])
  have h0 : (initialState α).sameCount = 0 := rfl
  have hp : (initialState α).page = 0 := rfl
  rw [h0, hp] at hb
  constructor
  · simp only [runCapture]
    omega
  · intro hlong hex
    simp only [runCapture] at hex ⊢
    have hc := runLoop_exhausted_consumed outs (initialState α) maxPages hex
    rw [hc] at hb
    omega

/-- Witness for C10: with ceiling 0 and a supply of 6 outcomes
(6 > 5 * 0 + 5), the loop stops without exhausting the supply. -/
theorem c10_termination_bound_witness :
    5 * 0 + 5 < (List.replicate 6 (Outcome.ok (0 : Nat))).length ∧
    (runCapture (List.replicate 6 (Outcome.ok (0 : Nat))) 0).reason ≠ .exhausted :=
  ⟨by decide,
   (c10_termination_bound (List.replicate 6 (Outcome.ok (0 : Nat))) 0).2 (by decide)⟩

/-! ### Image post-processing: `trim_whitespace` (claim C9) -/

/-- An image as the post-processor sees it (a PIL `Image`): a width, a
height, and an RGB pixel value at each coordinate.  Only coordinates
inside `width × height` matter to the operations modelled below; the
pixel function is total for simplicity. -/
@[ext]
structure Img where
  width : Nat
  height : Nat
  pix : Nat → Nat → Nat × Nat × Nat

/-- A grayscale image (PIL mode `L`). -/
@[ext]
structure GrayImg where
  width : Nat
  height : Nat
  pix : Nat → Nat → Nat

/-- `img.convert('L')` (line 425), modelled from PIL's documented
ITU-R 601-2 luma transform `L = (299 R + 587 G + 114 B) / 1000` with
integer truncation. -/
def convertL (I : Img) : GrayImg :=
  ⟨I.width, I.height, fun i j =>
    (299 * (I.pix i j).1 + 587 * (I.pix i j).2.1
      + 114 * (I.pix i j).2.2) / 1000⟩

/-- Column `i` holds a nonzero pixel somewhere inside the image. -/
def GrayImg.colHasContent (G : GrayImg) (i : Nat) : Bool :=
  (List.range G.height).any fun j => G.pix i j != 0

/-- Row `j` holds a nonzero pixel somewhere inside the image. -/
def GrayImg.rowHasContent (G : GrayImg) (j : Nat) : Bool :=
  (List.range G.width).any fun i => G.pix i j != 0

/-- The in-bounds columns containing a nonzero pixel. -/
def GrayImg.contentCols (G : GrayImg) : Finset Nat :=
  (Finset.range G.width).filter fun i => G.colHasContent i = true

/-- The in-bounds rows containing a nonzero pixel. -/
def GrayImg.contentRows (G : GrayImg) : Finset Nat :=
  (Finset.range G.height).filter fun j => G.rowHasContent j = true

/-- `gray.getbbox()` (line 426), modelled from PIL's documented
behaviour: the bounding box `(x1, y1, x2, y2)` (left and upper edges
inclusive, right and lower edges exclusive) of the nonzero regions of
the image, or `None` when every pixel is zero. -/
def GrayImg.getbbox (G : GrayImg) : Option (Nat × Nat × Nat × Nat) :=
  if h : G.contentCols.Nonempty ∧ G.contentRows.Nonempty then
    some (G.contentCols.min' h.1, G.contentRows.min' h.2,
      G.contentCols.max' h.1 + 1, G.contentRows.max' h.2 + 1)
  else none

/-- `img.crop((x1, y1, x2, y2))` (line 435): the `(x2 - x1) × (y2 - y1)`
image whose pixel `(i, j)` is the original pixel `(x1 + i, y1 + j)`. -/
def Img.crop (I : Img) (x1 y1 x2 y2 : Nat) : Img :=
  ⟨x2 - x1, y2 - y1, fun i j => I.pix (x1 + i) (y1 + j)⟩

/-- Cropping a grayscale image, for stating how `getbbox` interacts
with `Img.crop` through `convertL`. -/
def GrayImg.crop (G : GrayImg) (x1 y1 x2 y2 : Nat) : GrayImg :=
  ⟨x2 - x1, y2 - y1, fun i j => G.pix (x1 + i) (y1 + j)⟩

/-- `trim_whitespace` (lines 412-437): convert to grayscale, take the
bounding box of the nonzero region, widen it by a margin of 10 clamped
to the image bounds (lines 429-434), and crop; when `getbbox` returns
`None` the image is returned unchanged (line 437). -/
def trim_whitespace (I : Img) : Img :=
  match (convertL I).getbbox with
  | none => I
  | some (x1, y1, x2, y2) =>
    I.crop (max 0 (x1 - 10)) (max 0 (y1 - 10))
      (min I.width (x2 + 10)) (min I.height (y2 + 10))

theorem convertL_crop (I : Img) (x1 y1 x2 y2 : Nat) :
    convertL (I.crop x1 y1 x2 y2) = (convertL I).crop x1 y1 x2 y2 := rfl

theorem GrayImg.colHasContent_iff (G : GrayImg) (i : Nat) :
    G.colHasContent i = true ↔ ∃ j < G.height, G.pix i j ≠ 0 := by
  simp [colHasContent, List.any_eq_true, List.mem_range, bne_iff_ne]

theorem GrayImg.rowHasContent_iff (G : GrayImg) (j : Nat) :
    G.rowHasContent j = true ↔ ∃ i < G.width, G.pix i j ≠ 0 := by
  simp [rowHasContent, List.any_eq_true, List.mem_range, bne_iff_ne]

theorem GrayImg.mem_contentCols (G : GrayImg) (i : Nat) :
    i ∈ G.contentCols ↔ i < G.width ∧ G.colHasContent i = true := by
  simp [contentCols, Finset.mem_filter, Finset.mem_range]

theorem GrayImg.mem_contentRows (G : GrayImg) (j : Nat) :
    j ∈ G.contentRows ↔ j < G.height ∧ G.rowHasContent j = true := by
  simp [contentRows, Finset.mem_filter, Finset.mem_range]

theorem trim_of_getbbox (I : Img) (x1 y1 x2 y2 : Nat)
    (hbb : (convertL I).getbbox = some (x1, y1, x2, y2)) :
    trim_whitespace I = I.crop (max 0 (x1 - 10)) (max 0 (y1 - 10))
      (min I.width (x2 + 10)) (min I.height (y2 + 10)) := by
  unfold trim_whitespace
  rw [hbb]

theorem trim_of_getbbox_none (I : Img)
    (hbb : (convertL I).getbbox = none) :
    trim_whitespace I = I := by
  unfold trim_whitespace
  rw [hbb]

theorem Img.crop_full (I : Img) : I.crop 0 0 I.width I.height = I := by
  cases I
  simp [Img.crop]

theorem getbbox_bounds (G : GrayImg) (x1 y1 x2 y2 : Nat)
    (hbb : G.getbbox = some (x1, y1, x2, y2)) :
    x1 < x2 ∧ x2 ≤ G.width ∧ y1 < y2 ∧ y2 ≤ G.height := by
  rw [GrayImg.getbbox] at hbb
  split at hbb
  case isTrue h =>
    simp only [Option.some.injEq, Prod.mk.injEq] at hbb
    obtain ⟨h1, h2, h3, h4⟩ := hbb
    have hcle : G.contentCols.min' h.1 ≤ G.contentCols.max' h.1 :=
      Finset.min'_le _ _ (Finset.max'_mem _ h.1)
    have hcw : G.contentCols.max' h.1 < G.width := by
      have hm := Finset.max'_mem G.contentCols h.1
      rw [GrayImg.mem_contentCols] at hm
      exact hm.1
    have hrle : G.contentRows.min' h.2 ≤ G.contentRows.max' h.2 :=
      Finset.min'_le _ _ (Finset.max'_mem _ h.2)
    have hrh : G.contentRows.max' h.2 < G.height := by
      have hm := Finset.max'_mem G.contentRows h.2
      rw [GrayImg.mem_contentRows] at hm
      exact hm.1
    omega
  case isFalse h => simp at hbb

theorem getbbox_crop (G : GrayImg) (x1 y1 x2 y2 a b c d : Nat)
    (hbb : G.getbbox = some (x1, y1, x2, y2))
    (hax : a ≤ x1) (hby : b ≤ y1)
    (hxc : x2 ≤ c) (hcw : c ≤ G.width)
    (hyd : y2 ≤ d) (hdh : d ≤ G.height) :
    (G.crop a b c d).getbbox = some (x1 - a, y1 - b, x2 - a, y2 - b) := by
  obtain ⟨hxx, hxw, hyy, hyh⟩ := getbbox_bounds G x1 y1 x2 y2 hbb
  rw [GrayImg.getbbox] at hbb
  split at hbb
  case isFalse h => simp at hbb
  case isTrue h =>
  simp only [Option.some.injEq, Prod.mk.injEq] at hbb
  obtain ⟨h1, h2, h3, h4⟩ := hbb
  -- facts about the original bounding box
  have hx1mem : x1 ∈ G.contentCols := by rw [← h1]; exact Finset.min'_mem _ _
  have hx1le : ∀ i ∈ G.contentCols, x1 ≤ i := by
    intro i hi; rw [← h1]; exact Finset.min'_le _ _ hi
  have hx2mem : x2 - 1 ∈ G.contentCols := by
    have : G.contentCols.max' h.1 = x2 - 1 := by omega
    rw [← this]; exact Finset.max'_mem _ _
  have hx2ge : ∀ i ∈ G.contentCols, i ≤ x2 - 1 := by
    intro i hi
    have := Finset.le_max' G.contentCols i hi
    omega
  have hy1mem : y1 ∈ G.contentRows := by rw [← h2]; exact Finset.min'_mem _ _
  have hy1le : ∀ j ∈ G.contentRows, y1 ≤ j := by
    intro j hj; rw [← h2]; exact Finset.min'_le _ _ hj
  have hy2mem : y2 - 1 ∈ G.contentRows := by
    have : G.contentRows.max' h.2 = y2 - 1 := by omega
    rw [← this]; exact Finset.max'_mem _ _
  have hy2ge : ∀ j ∈ G.contentRows, j ≤ y2 - 1 := by
    intro j hj
    have := Finset.le_max' G.contentRows j hj
    omega
  -- every nonzero in-bounds pixel lies inside the bounding box
  have hpixbox : ∀ u v, u < G.width → v < G.height → G.pix u v ≠ 0 →
      x1 ≤ u ∧ u ≤ x2 - 1 ∧ y1 ≤ v ∧ v ≤ y2 - 1 := by
    intro u v hu hv hnz
    have hucol : u ∈ G.contentCols :=
      (GrayImg.mem_contentCols G u).mpr
        ⟨hu, (GrayImg.colHasContent_iff G u).mpr ⟨v, hv, hnz⟩⟩
    have hvrow : v ∈ G.contentRows :=
      (GrayImg.mem_contentRows G v).mpr
        ⟨hv, (GrayImg.rowHasContent_iff G v).mpr ⟨u, hu, hnz⟩⟩
    exact ⟨hx1le u hucol, hx2ge u hucol, hy1le v hvrow, hy2ge v hvrow⟩
  -- content transfer between the crop and the original
  have htransc : ∀ i, i < c - a →
      ((G.crop a b c d).colHasContent i = true ↔
        G.colHasContent (a + i) = true) := by
    intro i hi
    rw [GrayImg.colHasContent_iff, GrayImg.colHasContent_iff]
    constructor
    · rintro ⟨j, hj, hnz⟩
      simp only [GrayImg.crop] at hj hnz
      exact ⟨b + j, by omega, hnz⟩
    · rintro ⟨v, hv, hnz⟩
      have hbox := hpixbox (a + i) v (by omega) hv hnz
      refine ⟨v - b, ?_, ?_⟩
      · simp only [GrayImg.crop]
        omega
      · simp only [GrayImg.crop]
        rw [Nat.add_sub_cancel' (by omega : b ≤ v)]
        exact hnz
  have htransr : ∀ j, j < d - b →
      ((G.crop a b c d).rowHasContent j = true ↔
        G.rowHasContent (b + j) = true) := by
    intro j hj
    rw [GrayImg.rowHasContent_iff, GrayImg.rowHasContent_iff]
    constructor
    · rintro ⟨i, hi, hnz⟩
      simp only [GrayImg.crop] at hi hnz
      exact ⟨a + i, by omega, hnz⟩
    · rintro ⟨u, hu, hnz⟩
      have hbox := hpixbox u (b + j) hu (by omega) hnz
      refine ⟨u - a, ?_, ?_⟩
      · simp only [GrayImg.crop]
        omega
      · simp only [GrayImg.crop]
        rw [Nat.add_sub_cancel' (by omega : a ≤ u)]
        exact hnz
  have hmemc : ∀ i, i ∈ (G.crop a b c d).contentCols ↔
      i < c - a ∧ G.colHasContent (a + i) = true := by
    intro i
    rw [GrayImg.mem_contentCols]
    constructor
    · rintro ⟨hi, hc⟩
      exact ⟨hi, (htransc i hi).mp hc⟩
    · rintro ⟨hi, hc⟩
      exact ⟨hi, (htransc i hi).mpr hc⟩
  have hmemr : ∀ j, j ∈ (G.crop a b c d).contentRows ↔
      j < d - b ∧ G.rowHasContent (b + j) = true := by
    intro j
    rw [GrayImg.mem_contentRows]
    constructor
    · rintro ⟨hj, hc⟩
      exact ⟨hj, (htransr j hj).mp hc⟩
    · rintro ⟨hj, hc⟩
      exact ⟨hj, (htransr j hj).mpr hc⟩
  -- the crop's content columns/rows, pinned down
  have hx1c : x1 - a ∈ (G.crop a b c d).contentCols := by
    rw [hmemc]
    refine ⟨by omega, ?_⟩
    rw [Nat.add_sub_cancel' hax]
    exact ((GrayImg.mem_contentCols G x1).mp hx1mem).2
  have hx1cl : ∀ i ∈ (G.crop a b c d).contentCols, x1 - a ≤ i := by
    intro i hi
    rw [hmemc] at hi
    have hmem : a + i ∈ G.contentCols :=
      (GrayImg.mem_contentCols G _).mpr ⟨by omega, hi.2⟩
    have := hx1le _ hmem
    omega
  have hx2c : x2 - 1 - a ∈ (G.crop a b c d).contentCols := by
    rw [hmemc]
    refine ⟨by omega, ?_⟩
    rw [Nat.add_sub_cancel' (by omega : a ≤ x2 - 1)]
    exact ((GrayImg.mem_contentCols G _).mp hx2mem).2
  have hx2cu : ∀ i ∈ (G.crop a b c d).contentCols, i ≤ x2 - 1 - a := by
    intro i hi
    rw [hmemc] at hi
    have hmem : a + i ∈ G.contentCols :=
      (GrayImg.mem_contentCols G _).mpr ⟨by omega, hi.2⟩
    have := hx2ge _ hmem
    omega
  have hy1r : y1 - b ∈ (G.crop a b c d).contentRows := by
    rw [hmemr]
    refine ⟨by omega, ?_⟩
    rw [Nat.add_sub_cancel' hby]
    exact ((GrayImg.mem_contentRows G y1).mp hy1mem).2
  have hy1rl : ∀ j ∈ (G.crop a b c d).contentRows, y1 - b ≤ j := by
    intro j hj
    rw [hmemr] at hj
    have hmem : b + j ∈ G.contentRows :=
      (GrayImg.mem_contentRows G _).mpr ⟨by omega, hj.2⟩
    have := hy1le _ hmem
    omega
  have hy2r : y2 - 1 - b ∈ (G.crop a b c d).contentRows := by
    rw [hmemr]
    refine ⟨by omega, ?_⟩
    rw [Nat.add_sub_cancel' (by omega : b ≤ y2 - 1)]
    exact ((GrayImg.mem_contentRows G _).mp hy2mem).2
  have hy2ru : ∀ j ∈ (G.crop a b c d).contentRows, j ≤ y2 - 1 - b := by
    intro j hj
    rw [hmemr] at hj
    have hmem : b + j ∈ G.contentRows :=
      (GrayImg.mem_contentRows G _).mpr ⟨by omega, hj.2⟩
    have := hy2ge _ hmem
    omega
  have hne : (G.crop a b c d).contentCols.Nonempty ∧
      (G.crop a b c d).contentRows.Nonempty :=
    ⟨⟨x1 - a, hx1c⟩, ⟨y1 - b, hy1r⟩⟩
  rw [GrayImg.getbbox, dif_pos hne]
  simp only [Option.some.injEq, Prod.mk.injEq]
  refine ⟨?_, ?_, ?_, ?_⟩
  · exact le_antisymm (Finset.min'_le _ _ hx1c) (Finset.le_min' _ _ _ hx1cl)
  · exact le_antisymm (Finset.min'_le _ _ hy1r) (Finset.le_min' _ _ _ hy1rl)
  · have hm : (G.crop a b c d).contentCols.max' hne.1 = x2 - 1 - a :=
      le_antisymm (Finset.max'_le _ _ _ hx2cu) (Finset.le_max' _ _ hx2c)
    omega
  · have hm : (G.crop a b c d).contentRows.max' hne.2 = y2 - 1 - b :=
      le_antisymm (Finset.max'_le _ _ _ hy2ru) (Finset.le_max' _ _ hy2r)
    omega

/-- Claim C9: the trim step is idempotent — applying `trim_whitespace`
to an already-trimmed image returns it unchanged (pixel-for-pixel, i.e.
byte-identical output).  After one pass the content bounding box sits
within 10 units of every edge, so the second pass's widened, clamped box
is the whole image and the second crop is the identity. -/
theorem c9_trim_idempotent (I : Img) :
    trim_whitespace (trim_whitespace I) = trim_whitespace I := by
  cases hbb : (convertL I).getbbox with
  | none =>
    rw [trim_of_getbbox_none I hbb, trim_of_getbbox_none I hbb]
  | some box =>
    obtain ⟨x1, y1, x2, y2⟩ := box
    obtain ⟨hxx, hxw, hyy, hyh⟩ := getbbox_bounds _ x1 y1 x2 y2 hbb
    have hxw' : x2 ≤ I.width := hxw
    have hyh' : y2 ≤ I.height := hyh
    set a := max 0 (x1 - 10) with ha
    set b := max 0 (y1 - 10) with hb
    set c := min I.width (x2 + 10) with hc
    set d := min I.height (y2 + 10) with hd
    have hax : a ≤ x1 := by omega
    have hby : b ≤ y1 := by omega
    have hxc : x2 ≤ c := by omega
    have hcw : c ≤ I.width := by omega
    have hyd : y2 ≤ d := by omega
    have hdh : d ≤ I.height := by omega
    have htrim : trim_whitespace I = I.crop a b c d :=
      trim_of_getbbox I x1 y1 x2 y2 hbb
    have hbb2 : (convertL (I.crop a b c d)).getbbox
        = some (x1 - a, y1 - b, x2 - a, y2 - b) := by
      rw [convertL_crop]
      exact getbbox_crop (convertL I) x1 y1 x2 y2 a b c d hbb
        hax hby hxc hcw hyd hdh
    have htrim2 := trim_of_getbbox (I.crop a b c d)
      (x1 - a) (y1 - b) (x2 - a) (y2 - b) hbb2
    rw [htrim, htrim2]
    have e1 : max 0 (x1 - a - 10) = 0 := by omega
    have e2 : max 0 (y1 - b - 10) = 0 := by omega
    have e3 : min (I.crop a b c d).width (x2 - a + 10)
        = (I.crop a b c d).width := by
      have hw : (I.crop a b c d).width = c - a := rfl
      rw [hw]
      omega
    have e4 : min (I.crop a b c d).height (y2 - b + 10)
        = (I.crop a b c d).height := by
      have hh : (I.crop a b c d).height = d - b := rfl
      rw [hh]
      omega
    rw [e1, e2, e3, e4]
    exact Img.crop_full _
